import Mathlib

/-!
Shallow embedding of the NETLINK sock-diag core of `motd-rs`
(`src/commands/linux/netlink/…`), together with theorems settling the
frozen claims about it.

Conventions of the embedding:
* A Rust `Vec<u8>` receive buffer is a `List ℕ` whose elements are byte
  values (each `< 256`; the kernel only ever delivers bytes, and every
  concrete witness below uses genuine bytes).
* Machine integers are `ℕ`; the source's `a | b << 8` byte assembly is
  translated literally as `a ||| (b <<< 8)` (no overflow is possible for
  byte inputs, so no masking is needed).
* A Rust function that can panic (`Vec::remove` / `drain` out of range,
  an explicit `panic!`, `.expect(..)`) is embedded as an `Option`- or
  `PRes`-valued function whose `none` / `.panic` result marks the panic.
* `mem::size_of::<Response>()` for the (non-`repr(C)`) inet response
  struct is a compiler-layout constant; it is kept as an explicit
  parameter `sz` of the decoder.  Disjointness of struct fields gives the
  lower bound `sz ≥ 1 + 3 + (2+2+17+17+4+8) + 20 = 74 > 72` on any Rust
  compiler, which is how the hypotheses `72 < sz` of the relevant
  theorems are discharged for the real program.
-/

/-- Outcome of a fallible parse step: `panic` models a Rust panic,
`nothing` models a regular `Option::None` return, `ok` a success. -/
inductive PRes (α : Type) where
  | panic : PRes α
  | nothing : PRes α
  | ok : α → PRes α
deriving DecidableEq

/-- Rust `u8!(v)` macro: `v.remove(0)`; panics (`none`) on an empty vec. -/
def readU8 : List ℕ → Option (ℕ × List ℕ)
  | [] => none
  | a :: r => some (a, r)

/-- Rust `u16!(v)` macro: two `remove(0)` calls, little-endian assembly
`a | b << 8`. -/
def readU16le : List ℕ → Option (ℕ × List ℕ)
  | a :: b :: r => some (a ||| (b <<< 8), r)
  | _ => none

/-- Rust `u16_be!(v)` macro: two `remove(0)` calls, big-endian assembly
`b | a << 8`. -/
def readU16be : List ℕ → Option (ℕ × List ℕ)
  | a :: b :: r => some (b ||| (a <<< 8), r)
  | _ => none

/-- Rust `u32!(v)` macro: four `remove(0)` calls, little-endian assembly
`a | b << 8 | c << 16 | d << 24`. -/
def readU32le : List ℕ → Option (ℕ × List ℕ)
  | a :: b :: c :: d :: r =>
    some (((a ||| (b <<< 8)) ||| (c <<< 16)) ||| (d <<< 24), r)
  | _ => none

/-- Little-endian bytes of a `u16` (`u16::to_le_bytes`). -/
def u16ToLeBytes (n : ℕ) : List ℕ :=
  [n % 256, n / 2 ^ 8 % 256]

/-- Little-endian bytes of a `u32` (`u32::to_le_bytes`). -/
def u32ToLeBytes (n : ℕ) : List ℕ :=
  [n % 256, n / 2 ^ 8 % 256, n / 2 ^ 16 % 256, n / 2 ^ 24 % 256]

/-- `nlmsgtype.rs`, enum `NlMsgType`: message types of a NETLINK header. -/
inductive NlMsgType where
  | None | NoOp | Error | Done | Overrun | SockDiagByFamily | SockDestroy
deriving DecidableEq

/-- `nlmsgtype.rs`, `NlMsgType::new`: conversion from the raw wire `u16`.
The source `match` ends in a panicking arm — `x => panic!(..)` with an
unknown-message text — embedded as `none`. -/
def nlMsgTypeNew (t : ℕ) : Option NlMsgType :=
  match t with
  | 0x00 => some .None
  | 0x01 => some .NoOp
  | 0x02 => some .Error
  | 0x03 => some .Done
  | 0x04 => some .Overrun
  | 0x14 => some .SockDiagByFamily
  | 0x15 => some .SockDestroy
  | _ => none

/-- `header.rs`, `MessageType::new`: the textually identical twin of
`NlMsgType::new`, with the same `panic!` fall-through arm. -/
def messageTypeNew (t : ℕ) : Option NlMsgType :=
  match t with
  | 0x00 => some .None
  | 0x01 => some .NoOp
  | 0x02 => some .Error
  | 0x03 => some .Done
  | 0x04 => some .Overrun
  | 0x14 => some .SockDiagByFamily
  | 0x15 => some .SockDestroy
  | _ => none

/-- `sockdiag.rs` / `nlsocket.rs`, enum `AddressFamily`
(`Unknown = 0`, `Inet = libc::AF_INET = 2`, `Inet6 = libc::AF_INET6 = 10`,
`Unix = libc::AF_UNIX = 1`). -/
inductive AddressFamily where
  | Unknown | Inet | Inet6 | Unix
deriving DecidableEq

/-- `sockdiag.rs`, `impl From<u8> for AddressFamily`. -/
def addressFamilyFromU8 (u : ℕ) : AddressFamily :=
  match u with
  | 2 => .Inet
  | 10 => .Inet6
  | 1 => .Unix
  | _ => .Unknown

/-- `nlmsgheader.rs`, struct `NlMsgHeader` (`repr(C)`:
`u32, u16, u16, u32, u32`, hence `mem::size_of::<NlMsgHeader>() = 16`). -/
structure NlMsgHeader where
  nlmsg_len : ℕ
  nlmsg_type : ℕ
  nlmsg_flags : ℕ
  nlmsg_seq : ℕ
  nlmsg_pid : ℕ
deriving DecidableEq

/-- `nlmsgheader.rs`, `NlMsgHeader::new(ty, flags, size)`:
`nlmsg_len = size + size_of::<Self>()`, flags ORed with
`NlFlag::Request = 0x01` (the `flags!` combinator ORs its arguments). -/
def nlMsgHeaderNew (ty : ℕ) (flags : ℕ) (size : ℕ) : NlMsgHeader :=
  { nlmsg_len := size + 16
    nlmsg_type := ty
    nlmsg_flags := 0x01 ||| flags
    nlmsg_seq := 0
    nlmsg_pid := 0 }

/-- `nlmsgheader.rs`, `NlMsgHeader::to_vec`: five little-endian fields,
16 bytes in total. -/
def nlMsgHeaderToVec (h : NlMsgHeader) : List ℕ :=
  u32ToLeBytes h.nlmsg_len ++ u16ToLeBytes h.nlmsg_type ++
    u16ToLeBytes h.nlmsg_flags ++ u32ToLeBytes h.nlmsg_seq ++
    u32ToLeBytes h.nlmsg_pid

/-- `nlmsgheader.rs`, `NlMsgHeader::from_vec`: `None` when fewer than
`size_of::<Self>() = 16` bytes remain, otherwise the five fields are read
with the `u32!` / `u16!` cursor macros, advancing the buffer. -/
def nlMsgHeaderFromVec (v : List ℕ) : Option (NlMsgHeader × List ℕ) :=
  if v.length < 16 then none
  else do
    let (len, v) ← readU32le v
    let (ty, v) ← readU16le v
    let (fl, v) ← readU16le v
    let (seq, v) ← readU32le v
    let (pid, v) ← readU32le v
    some (⟨len, ty, fl, seq, pid⟩, v)

/-- `nlresponse.rs`, struct `NetlinkAttribute`: one TLV attribute
(`size` is the declared total length including the 4-byte prefix). -/
structure NetlinkAttribute where
  size : ℕ
  ty : ℕ
  data : List ℕ
deriving DecidableEq

/-- `nlresponse.rs`, `NetlinkAttribute::new`.  Source behaviour:
`if v.len() > 4` (otherwise `None`); read `size` and `ty` with `u16!`;
`v.drain(0..(len - 4))` for the data (panics when `len < 4` by usize
underflow, or when the buffer holds fewer bytes); then
`discard = 4 - (len % 4)` and, only `if discard != 4`, `advance!(v,
discard)` (panics when the padding bytes are missing). -/
def attributeNew (v : List ℕ) : PRes (NetlinkAttribute × List ℕ) :=
  if v.length ≤ 4 then .nothing
  else
    let a := v.getD 0 0
    let b := v.getD 1 0
    let c := v.getD 2 0
    let d := v.getD 3 0
    let rest := v.drop 4
    let size := a ||| (b <<< 8)
    let ty := c ||| (d <<< 8)
    if size < 4 then .panic
    else if rest.length < size - 4 then .panic
    else
      let data := rest.take (size - 4)
      let rest := rest.drop (size - 4)
      let discard := 4 - size % 4
      if discard ≠ 4 then
        if rest.length < discard then .panic
        else .ok (⟨size, ty, data⟩, rest.drop discard)
      else .ok (⟨size, ty, data⟩, rest)

/-- Model of `std::net::IpAddr` as used by the decoders. -/
inductive IpAddr where
  | v4 : ℕ → ℕ → ℕ → ℕ → IpAddr
  | v6 : ℕ → ℕ → ℕ → ℕ → ℕ → ℕ → ℕ → ℕ → IpAddr
deriving DecidableEq

/-- `sockdiag/inet.rs`, struct `NlINetDiagSockId` (the decoded form,
with `idiag_cookie : [u32; 2]` as a pair). -/
structure NlINetDiagSockId where
  idiag_sport : ℕ
  idiag_dport : ℕ
  idiag_src : IpAddr
  idiag_dst : IpAddr
  idiag_if : ℕ
  idiag_cookie : ℕ × ℕ
deriving DecidableEq

/-- Address part of `NlINetDiagSockId::parse`: for `Inet` four `u8!`
address bytes followed by three discarded `u32!` reads (12 padding
bytes); for `Inet6` eight `u16!` reads; any other family yields the
zeroed IPv4 default without consuming bytes. -/
def readDiagAddr (family : AddressFamily) (v : List ℕ) :
    Option (IpAddr × List ℕ) :=
  match family with
  | .Inet => do
    let (a, v) ← readU8 v
    let (b, v) ← readU8 v
    let (c, v) ← readU8 v
    let (d, v) ← readU8 v
    let (_, v) ← readU32le v
    let (_, v) ← readU32le v
    let (_, v) ← readU32le v
    some (.v4 a b c d, v)
  | .Inet6 => do
    let (a, v) ← readU16le v
    let (b, v) ← readU16le v
    let (c, v) ← readU16le v
    let (d, v) ← readU16le v
    let (e, v) ← readU16le v
    let (f, v) ← readU16le v
    let (g, v) ← readU16le v
    let (h, v) ← readU16le v
    some (.v6 a b c d e f g h, v)
  | _ => some (.v4 0 0 0 0, v)

/-- `sockdiag/inet.rs`, `NlINetDiagSockId::parse`: big-endian ports,
two family-dependent addresses, interface and the two cookie words. -/
def nlINetDiagSockIdParse (family : AddressFamily) (v : List ℕ) :
    Option (NlINetDiagSockId × List ℕ) := do
  let (sport, v) ← readU16be v
  let (dport, v) ← readU16be v
  let (src, v) ← readDiagAddr family v
  let (dst, v) ← readDiagAddr family v
  let (iface, v) ← readU32le v
  let (c1, v) ← readU32le v
  let (c2, v) ← readU32le v
  some (⟨sport, dport, src, dst, iface, (c1, c2)⟩, v)

/-- `sockdiag/inet.rs`, struct `Response` (the decoded inet-diag
message). -/
structure InetResponse where
  idiag_family : AddressFamily
  idiag_state : ℕ
  idiag_time : ℕ
  idiag_retrans : ℕ
  id : NlINetDiagSockId
  idiag_expires : ℕ
  idiag_rqueue : ℕ
  idiag_wqueue : ℕ
  idiag_uid : ℕ
  idiag_inode : ℕ
deriving DecidableEq

/-- Field-reading part of `sockdiag/inet.rs`, `Response::new`: the reads
performed on the drained block `b` (four `u8!`, the socket id, five
`u32!`). -/
def inetParseFields (b : List ℕ) : Option InetResponse := do
  let (fam, b) ← readU8 b
  let family := addressFamilyFromU8 fam
  let (state, b) ← readU8 b
  let (time, b) ← readU8 b
  let (retrans, b) ← readU8 b
  let (id, b) ← nlINetDiagSockIdParse family b
  let (expires, b) ← readU32le b
  let (rqueue, b) ← readU32le b
  let (wqueue, b) ← readU32le b
  let (uid, b) ← readU32le b
  let (inode, _) ← readU32le b
  some ⟨family, state, time, retrans, id, expires, rqueue, wqueue, uid, inode⟩

/-- `sockdiag/inet.rs`, `Response::new`.  The source first executes
`let sz = mem::size_of::<Self>(); let mut b: Vec<u8> = v.drain(0..sz)
.collect();` — it drains `sz` bytes (panicking when fewer remain) and
parses the fields from the drained block, discarding that block's
remainder.  `sz` is the layout constant passed in as a parameter here. -/
def inetResponseNew (sz : ℕ) (v : List ℕ) : Option (InetResponse × List ℕ) :=
  if v.length < sz then none
  else (inetParseFields (v.take sz)).map (fun msg => (msg, v.drop sz))

/-- `sockdiag.rs`, struct `MemInfo`: eight `u32` memory counters. -/
structure MemInfo where
  rmem_alloc : ℕ
  rcv_buf : ℕ
  wmem_alloc : ℕ
  snd_buf : ℕ
  fwd_alloc : ℕ
  wmem_queued : ℕ
  opt_mem : ℕ
  backlog : ℕ
deriving DecidableEq

/-- `sockdiag.rs`, `MemInfo::new`: eight consecutive `u32!` reads, in
declaration order; 32 bytes total. -/
def memInfoNew (v : List ℕ) : Option (MemInfo × List ℕ) := do
  let (rmem_alloc, v) ← readU32le v
  let (rcv_buf, v) ← readU32le v
  let (wmem_alloc, v) ← readU32le v
  let (snd_buf, v) ← readU32le v
  let (fwd_alloc, v) ← readU32le v
  let (wmem_queued, v) ← readU32le v
  let (opt_mem, v) ← readU32le v
  let (backlog, v) ← readU32le v
  some (⟨rmem_alloc, rcv_buf, wmem_alloc, snd_buf, fwd_alloc, wmem_queued,
         opt_mem, backlog⟩, v)

/-- `types/sockdiag/unix.rs`, struct `Vfs`. -/
structure Vfs where
  device_number : ℕ
  inode : ℕ
deriving DecidableEq

/-- `types/sockdiag/unix.rs`, struct `Queue`. -/
structure Queue where
  read : ℕ
  write : ℕ
deriving DecidableEq

/-- `types/sockdiag/unix.rs`, struct `Response`: the fixed unix-diag
fields followed by the optional attribute values (a decoded name is kept
as its byte sequence). -/
structure UnixResponse where
  family : AddressFamily
  ty : ℕ
  state : ℕ
  pad : ℕ
  ino : ℕ
  cookie : ℕ × ℕ
  name : Option (List ℕ)
  vfs : Option Vfs
  peer : Option ℕ
  icons : Option (List ℕ)
  queue : Option Queue
  mem : Option MemInfo
  shutdown : Option ℕ
deriving DecidableEq

/-- `std::ffi::CString::new(bytes)`: `Ok` exactly when no interior NUL
byte occurs; the bytes pass through unchanged. -/
def cstringNew (d : List ℕ) : Option (List ℕ) :=
  if 0 ∈ d then none else some d

/-- Is `c` a UTF-8 continuation byte (`0x80..=0xBF`)? -/
def isUtf8Cont (c : ℕ) : Bool :=
  0x80 ≤ c && c ≤ 0xBF

/-- UTF-8 well-formedness of a byte sequence, exactly the RFC 3629
automaton that Rust's `String` conversion (`CString::into_string`)
checks: no surrogates, no overlong forms, max `U+10FFFF`. -/
def utf8Valid : List ℕ → Bool
  | [] => true
  | b :: r =>
    if b ≤ 0x7F then utf8Valid r
    else if 0xC2 ≤ b && b ≤ 0xDF then
      match r with
      | c :: r2 => isUtf8Cont c && utf8Valid r2
      | [] => false
    else if b = 0xE0 then
      match r with
      | c :: d :: r2 => (0xA0 ≤ c && c ≤ 0xBF) && isUtf8Cont d && utf8Valid r2
      | _ => false
    else if (0xE1 ≤ b && b ≤ 0xEC) || b = 0xEE || b = 0xEF then
      match r with
      | c :: d :: r2 => isUtf8Cont c && isUtf8Cont d && utf8Valid r2
      | _ => false
    else if b = 0xED then
      match r with
      | c :: d :: r2 => (0x80 ≤ c && c ≤ 0x9F) && isUtf8Cont d && utf8Valid r2
      | _ => false
    else if b = 0xF0 then
      match r with
      | c :: d :: e :: r2 =>
        (0x90 ≤ c && c ≤ 0xBF) && isUtf8Cont d && isUtf8Cont e && utf8Valid r2
      | _ => false
    else if 0xF1 ≤ b && b ≤ 0xF3 then
      match r with
      | c :: d :: e :: r2 =>
        isUtf8Cont c && isUtf8Cont d && isUtf8Cont e && utf8Valid r2
      | _ => false
    else if b = 0xF4 then
      match r with
      | c :: d :: e :: r2 =>
        (0x80 ≤ c && c ≤ 0x8F) && isUtf8Cont d && isUtf8Cont e && utf8Valid r2
      | _ => false
    else false

/-- `CString::into_string().ok()`: `some` of the bytes when they are
valid UTF-8, `none` otherwise. -/
def cstringIntoString (d : List ℕ) : Option (List ℕ) :=
  if utf8Valid d then some d else none

/-- The `RESP_ATTR_ICONS` `while attr.data.len() > 4` loop of
`types/sockdiag/unix.rs`, `Response::new`: keep reading `u32!` values
while STRICTLY more than four bytes remain.  Returns the collected
inodes and the unconsumed remainder of the attribute data. -/
def iconsLoop : List ℕ → List ℕ × List ℕ
  | a :: b :: c :: d :: e :: r =>
    let x := ((a ||| (b <<< 8)) ||| (c <<< 16)) ||| (d <<< 24)
    let (xs, rest) := iconsLoop (e :: r)
    (x :: xs, rest)
  | v => ([], v)

/-- All complete little-endian `u32` values of a byte list, in order
(what a `while len >= 4` loop would collect). -/
def leU32List : List ℕ → List ℕ
  | a :: b :: c :: d :: r =>
    (((a ||| (b <<< 8)) ||| (c <<< 16)) ||| (d <<< 24)) :: leU32List r
  | _ => []

/-- One arm of the attribute dispatch chain in `types/sockdiag/unix.rs`,
`Response::new` (the body of the `while let Some(mut attr) = ...` loop):
updates the response fields from a single decoded TLV attribute.
Attribute codes: 0 Name, 1 Vfs, 2 Peer, 3 Icons, 4 RqLen, 5 MemInfo,
6 Shutdown; every other code is skipped.  `none` models a panic (only
possible for a `Shutdown` attribute with empty data, where the source
reads `u8!(attr.data)` unguarded). -/
def unixApplyAttr (resp : UnixResponse) (attr : NetlinkAttribute) :
    Option UnixResponse :=
  if attr.ty = 0 then
    let d := attr.data.dropLast
    match cstringNew d with
    | some cs => some { resp with name := cstringIntoString cs }
    | none => some resp
  else if attr.ty = 1 then
    if 8 ≤ attr.data.length then
      match readU32le attr.data with
      | some (dev, d2) =>
        match readU32le d2 with
        | some (ino, _) => some { resp with vfs := some ⟨dev, ino⟩ }
        | none => none
      | none => none
    else some resp
  else if attr.ty = 2 then
    if 4 ≤ attr.data.length then
      match readU32le attr.data with
      | some (p, _) => some { resp with peer := some p }
      | none => none
    else some resp
  else if attr.ty = 3 then
    let inodes := (iconsLoop attr.data).1
    if 0 < inodes.length then some { resp with icons := some inodes }
    else some resp
  else if attr.ty = 4 then
    if 8 ≤ attr.data.length then
      match readU32le attr.data with
      | some (rd, d2) =>
        match readU32le d2 with
        | some (wr, _) => some { resp with queue := some ⟨rd, wr⟩ }
        | none => none
      | none => none
    else some resp
  else if attr.ty = 5 then
    if 32 ≤ attr.data.length then
      match memInfoNew attr.data with
      | some (m, _) => some { resp with mem := some m }
      | none => none
    else some resp
  else if attr.ty = 6 then
    match attr.data with
    | [] => none
    | s :: _ => some { resp with shutdown := some s }
  else some resp

/-- The attribute loop of `types/sockdiag/unix.rs`, `Response::new`:
`while let Some(mut attr) = NetlinkAttribute::new(v)`.  `fuel` is a
termination measure only; every successful `attributeNew` consumes at
least four bytes, so `v.length + 1` units never run out. -/
def unixAttrLoop : ℕ → UnixResponse → List ℕ → Option UnixResponse
  | 0, _, _ => none
  | fuel + 1, resp, v =>
    match attributeNew v with
    | .nothing => some resp
    | .panic => none
    | .ok (attr, rest) =>
      match unixApplyAttr resp attr with
      | some r2 => unixAttrLoop fuel r2 rest
      | none => none

/-- `types/sockdiag/unix.rs`, `Response::new`: the 16-byte fixed part
(`u8!` family/type/state/pad, `u32!` inode, two `u32!` cookie words)
followed by the attribute loop. -/
def unixResponseNew (v : List ℕ) : Option UnixResponse := do
  let (fam, v) ← readU8 v
  let (ty, v) ← readU8 v
  let (state, v) ← readU8 v
  let (pad, v) ← readU8 v
  let (ino, v) ← readU32le v
  let (c1, v) ← readU32le v
  let (c2, v) ← readU32le v
  let resp : UnixResponse :=
    ⟨addressFamilyFromU8 fam, ty, state, pad, ino, (c1, c2),
     none, none, none, none, none, none, none⟩
  unixAttrLoop (v.length + 1) resp v

/-- `sockdiag.rs`, enum `Response`: the per-family dispatch result. -/
inductive SockdiagResponse where
  | None : SockdiagResponse
  | Inet : InetResponse → SockdiagResponse
  | Unix : UnixResponse → SockdiagResponse
deriving DecidableEq

/-- `sockdiag.rs`, `Response::new`: peeks `v[0]` (a panic — `none` —
on an empty buffer), dispatches on the address family, and decodes the
matching response; an unknown family yields `Response::None`.  `sz` is
the inet decoder's layout constant. -/
def sockdiagResponseNew (sz : ℕ) (v : List ℕ) : Option SockdiagResponse :=
  match v with
  | [] => none
  | b0 :: _ =>
    match addressFamilyFromU8 b0 with
    | .Inet | .Inet6 => (inetResponseNew sz v).map (fun p => .Inet p.1)
    | .Unix => (unixResponseNew v).map .Unix
    | .Unknown => some .None

/-- `nlresponse.rs`, enum `NlResponsePayload`. -/
inductive NlResponsePayload where
  | None : NlResponsePayload
  | SockDiag : SockdiagResponse → NlResponsePayload
deriving DecidableEq

/-- `nlresponse.rs`, struct `NetlinkResponse`. -/
structure NetlinkResponse where
  header : NlMsgHeader
  payload : NlResponsePayload
deriving DecidableEq

/-- `nlresponse.rs`, `NetlinkResponse::new`: parse a header (`nothing`
when fewer than 16 bytes remain), reject `nlmsg_len < 16` (`nothing`),
drain the `nlmsg_len - 16` payload bytes (a panic when the buffer is
shorter), then dispatch on `header.msg_type()` — which panics for an
unmapped type — decoding a sock-diag payload for `SockDiagByFamily` and
storing `None` otherwise. -/
def netlinkResponseNew (sz : ℕ) (v : List ℕ) :
    PRes (NetlinkResponse × List ℕ) :=
  match nlMsgHeaderFromVec v with
  | none => .nothing
  | some (header, v1) =>
    if header.nlmsg_len < 16 then .nothing
    else
      let psz := header.nlmsg_len - 16
      if v1.length < psz then .panic
      else
        let data := v1.take psz
        let v2 := v1.drop psz
        match nlMsgTypeNew header.nlmsg_type with
        | none => .panic
        | some .SockDiagByFamily =>
          match sockdiagResponseNew sz data with
          | none => .panic
          | some r => .ok (⟨header, .SockDiag r⟩, v2)
        | some _ => .ok (⟨header, .None⟩, v2)

/-- `nlresponse.rs`, `NetlinkResponse::is_last`: the header identifies a
`Done` message.  (In the dump loop the header's type has already passed
`msg_type()` without panicking.) -/
def netlinkResponseIsLast (r : NetlinkResponse) : Bool :=
  nlMsgTypeNew r.header.nlmsg_type = some NlMsgType.Done

/-- The per-buffer decode loop of `nlrequest.rs`, `NetlinkRequest::send`
(`loop { let resp = NetlinkResponse::new(&mut buffer); ... }`): collects
non-terminal responses in arrival order, stops with `is_done = true`
when a `Done` message is decoded (the `Done` message itself having been
consumed but not collected), and stops with `is_done = false` when no
further message parses.  Returns the collected responses, the done flag
and the unconsumed remainder.  `fuel` is a termination measure only;
each iteration consumes at least 16 bytes, so `v.length + 1` never runs
out. -/
def decodeLoop (sz : ℕ) : ℕ → List ℕ →
    PRes (List NetlinkResponse × Bool × List ℕ)
  | 0, _ => .panic
  | fuel + 1, v =>
    match netlinkResponseNew sz v with
    | .nothing => .ok ([], false, v)
    | .panic => .panic
    | .ok (resp, rest) =>
      if netlinkResponseIsLast resp then .ok ([], true, rest)
      else
        match decodeLoop sz fuel rest with
        | .ok (rs, d, rem) => .ok (resp :: rs, d, rem)
        | _ => .panic

/-- `nlsocket.rs`, `NetlinkSocket::new`: `libc::socket` returning `-1`
yields `Err(Error::last_os_error())`; the error value carries the OS
error code (`errno`), modelled as the second argument. -/
def netlinkSocketNew (ret : Int) (errno : Int) : Except Int Unit :=
  if ret = -1 then .error errno else .ok ()

/-- `nlsocket.rs`, `NetlinkSocket::send`: a negative `libc::send` return
yields `Err(Error::last_os_error())`, otherwise the byte count. -/
def netlinkSocketSend (ret : Int) (errno : Int) : Except Int ℕ :=
  if ret < 0 then .error errno else .ok ret.toNat

/-- `nlsocket.rs`, `NetlinkSocket::recv`: a negative `libc::recv` return
yields `Err(Error::last_os_error())`, otherwise the byte count. -/
def netlinkSocketRecv (ret : Int) (errno : Int) : Except Int ℕ :=
  if ret < 0 then .error errno else .ok ret.toNat

/-- Terminal outcome of one dump (`NetlinkRequest::send`):
`panicked` models a Rust panic (`.expect(..)` on an `Err`, or a panic
inside decoding), `ok` the returned response vector, `blocked` a dump
that would sit in a blocking `recv` forever. -/
inductive DumpOutcome where
  | panicked : DumpOutcome
  | ok : List NetlinkResponse → DumpOutcome
  | blocked : DumpOutcome
deriving DecidableEq

/-- The `while !is_done` receive loop of `nlrequest.rs`,
`NetlinkRequest::send`: each element of `recvs` is the result of one
`socket.recv(..)` call (`Err e` an OS failure with code `e`, `Ok buf`
the received bytes).  An `Err` hits the receive `.expect(..)`
— a panic; an empty receive breaks out with the accumulated
responses; otherwise the buffer is decoded and, when a `Done` was seen,
the accumulated responses are returned. -/
def recvLoop (sz : ℕ) : List (Except Int (List ℕ)) → List NetlinkResponse →
    DumpOutcome
  | [], _ => .blocked
  | r :: rest, acc =>
    match r with
    | .error _ => .panicked
    | .ok buf =>
      if buf.length = 0 then .ok acc
      else
        match decodeLoop sz (buf.length + 1) buf with
        | .panic => .panicked
        | .nothing => .panicked
        | .ok (rs, isDone, _) =>
          if isDone then .ok (acc ++ rs) else recvLoop sz rest (acc ++ rs)

/-- `nlrequest.rs`, `NetlinkRequest::send`, as a function of the
transport results it observes: the `.expect(..)` on
`NetlinkSocket::new(..)` panics on a create failure, the `.expect(..)`
on `socket.send(..)` panics on a send failure, then the receive loop
runs. -/
def netlinkRequestSend (sz : ℕ) (createRes : Except Int Unit)
    (sendRes : Except Int ℕ) (recvs : List (Except Int (List ℕ))) :
    DumpOutcome :=
  match createRes with
  | .error _ => .panicked
  | .ok () =>
    match sendRes with
    | .error _ => .panicked
    | .ok _ => recvLoop sz recvs []

/-- `header.rs`, struct `Header` (same `repr(C)` layout as
`NlMsgHeader`; reused). -/
abbrev Header := NlMsgHeader

/-- `header.rs`, `Header::new(ty, size)`: `nlmsg_len = size +
size_of::<Self>()`, `nlmsg_flags = Flag::Request.as_u16() =
libc::NLM_F_REQUEST = 0x01`, zero sequence and pid. -/
def headerNew (ty : ℕ) (size : ℕ) : Header :=
  { nlmsg_len := size + 16
    nlmsg_type := ty
    nlmsg_flags := 0x01
    nlmsg_seq := 0
    nlmsg_pid := 0 }

/-- `header.rs`, `Header::flag`: OR one flag's `u16` value into
`nlmsg_flags` (`Flag::Dump.as_u16() = libc::NLM_F_DUMP = NLM_F_ROOT |
NLM_F_MATCH = 0x300`). -/
def headerFlag (h : Header) (f : ℕ) : Header :=
  { h with nlmsg_flags := h.nlmsg_flags ||| f }

/-- `sockdiag/inet.rs`, struct `NlINetDiagReqV2` (request payload,
flattened socket id; `repr(C)`, 56 bytes on the wire). -/
structure NlINetDiagReqV2 where
  sdiag_family : ℕ
  sdiag_protocol : ℕ
  idiag_ext : ℕ
  pad : ℕ
  idiag_states : ℕ
  idiag_sport : ℕ
  idiag_dport : ℕ
  idiag_src : List ℕ
  idiag_dst : List ℕ
  idiag_if : ℕ
  idiag_cookie : ℕ × ℕ
deriving DecidableEq

/-- `sockdiag/inet.rs`, `NlINetDiagReqV2::default()`
(`AddressFamily::Inet = 2`, `Protocol::Tcp = libc::IPPROTO_TCP = 6`,
no state filter, zeroed socket id, cookie `[0, 2]`). -/
def nlINetDiagReqV2Default : NlINetDiagReqV2 :=
  { sdiag_family := 2
    sdiag_protocol := 6
    idiag_ext := 0
    pad := 0
    idiag_states := 0
    idiag_sport := 0
    idiag_dport := 0
    idiag_src := [0, 0, 0, 0]
    idiag_dst := [0, 0, 0, 0]
    idiag_if := 0
    idiag_cookie := (0, 2) }

/-- `sockdiag/inet.rs`, `SocketState::as_u32` (`Listen = 0x0A`, etc.)
kept as the raw state code. -/
def socketStateListen : ℕ := 0x0A

/-- `sockdiag/inet.rs`, struct `Request`: header plus payload. -/
structure InetRequest where
  hdr : Header
  msg : NlINetDiagReqV2
deriving DecidableEq

/-- `sockdiag/inet.rs`, `Request::new()`:
`Header::new(MessageType::SockDiagByFamily, 56).flag(Flag::Dump)` with a
default payload (`MessageType::SockDiagByFamily as u16 = 0x14`). -/
def inetRequestNew : InetRequest :=
  { hdr := headerFlag (headerNew 0x14 56) 0x300
    msg := nlINetDiagReqV2Default }

/-- `sockdiag/inet.rs`, `Request::socket_state`: ORs
`state.as_flag() = 1 << state.as_u32()` into `idiag_states`. -/
def inetRequestSocketState (r : InetRequest) (stateCode : ℕ) : InetRequest :=
  { r with msg := { r.msg with
      idiag_states := r.msg.idiag_states ||| (1 <<< stateCode) } }

/-- `types/nlsockdiag.rs`, `NlINetDiagSockId::to_vec` (request form):
little-endian ports, 16 zero bytes per address, the interface word and
8 zero cookie bytes — 48 bytes. -/
def sockIdRequestToVec (sport dport iface : ℕ) : List ℕ :=
  u16ToLeBytes sport ++ u16ToLeBytes dport ++ List.replicate 16 0 ++
    List.replicate 16 0 ++ u32ToLeBytes iface ++ List.replicate 8 0

/-- `types/nlsockdiag.rs`, `NlINetDiagReqV2::to_vec`: four single bytes,
the little-endian state mask, then the socket id — 56 bytes. -/
def nlINetDiagReqV2ToVec (r : NlINetDiagReqV2) : List ℕ :=
  [r.sdiag_family, r.sdiag_protocol, r.idiag_ext, r.pad] ++
    u32ToLeBytes r.idiag_states ++
    sockIdRequestToVec r.idiag_sport r.idiag_dport r.idiag_if

/-- `types/nlsockdiag.rs`, `InternetSocketRequest::build` for the
default Inet/Tcp dump request (`InternetSocketRequest::new()` pairs a
`SockDiagByFamily` header carrying the `Dump = 0x300` get-flag with a
default `NlINetDiagReqV2`; that generation's default state mask is
`1 << 10`, LISTEN only): `build` overwrites `nlmsg_len = 72` and emits
`hdr.to_vec() ++ payload.to_vec()`. -/
def internetSocketRequestBuild : List ℕ :=
  let hdr := { nlMsgHeaderNew 0x14 0x300 56 with nlmsg_len := 72 }
  let payload := { nlINetDiagReqV2Default with idiag_states := 1 <<< 10 }
  nlMsgHeaderToVec hdr ++ nlINetDiagReqV2ToVec payload

/-- Disjoint bitwise OR is addition: ORing a value below `2 ^ k` with a
`k`-shifted value adds them. -/
lemma lor_shiftLeft_eq_add {a : ℕ} (b k : ℕ) (h : a < 2 ^ k) :
    a ||| (b <<< k) = a + 2 ^ k * b := by
  rw [Nat.shiftLeft_eq, Nat.mul_comm b (2 ^ k), Nat.lor_comm,
    ← Nat.mul_add_lt_is_or h, Nat.add_comm]

/-- Reading back the little-endian bytes of a `u16` recovers it. -/
lemma readU16le_roundtrip {n : ℕ} (h : n < 2 ^ 16) (rest : List ℕ) :
    readU16le (u16ToLeBytes n ++ rest) = some (n, rest) := by
  have h1 : n % 256 < 2 ^ 8 := by omega
  simp only [u16ToLeBytes, List.cons_append, List.nil_append, readU16le,
    lor_shiftLeft_eq_add _ 8 h1]
  have hn : n % 256 + 2 ^ 8 * (n / 2 ^ 8 % 256) = n := by omega
  rw [hn]

/-- Reading back the little-endian bytes of a `u32` recovers it. -/
lemma readU32le_roundtrip {n : ℕ} (h : n < 2 ^ 32) (rest : List ℕ) :
    readU32le (u32ToLeBytes n ++ rest) = some (n, rest) := by
  have h1 : n % 256 < 2 ^ 8 := by omega
  have h2 : n % 256 + 2 ^ 8 * (n / 2 ^ 8 % 256) < 2 ^ 16 := by omega
  have h3 : n % 256 + 2 ^ 8 * (n / 2 ^ 8 % 256)
      + 2 ^ 16 * (n / 2 ^ 16 % 256) < 2 ^ 24 := by omega
  simp only [u32ToLeBytes, List.cons_append, List.nil_append, readU32le,
    lor_shiftLeft_eq_add _ 8 h1, lor_shiftLeft_eq_add _ 16 h2,
    lor_shiftLeft_eq_add _ 24 h3]
  have hn : n % 256 + 2 ^ 8 * (n / 2 ^ 8 % 256) + 2 ^ 16 * (n / 2 ^ 16 % 256)
      + 2 ^ 24 * (n / 2 ^ 24 % 256) = n := by omega
  rw [hn]

/-- C5: for every assignment of the five header fields (each within its
machine-integer range), encoding the 16-byte NETLINK header with
`to_vec` and decoding the bytes with `from_vec` recovers a header whose
five field values equal the originals (and consumes the buffer fully). -/
theorem nlmsgheader_encode_decode_roundtrip (hd : NlMsgHeader)
    (h1 : hd.nlmsg_len < 2 ^ 32) (h2 : hd.nlmsg_type < 2 ^ 16)
    (h3 : hd.nlmsg_flags < 2 ^ 16) (h4 : hd.nlmsg_seq < 2 ^ 32)
    (h5 : hd.nlmsg_pid < 2 ^ 32) :
    nlMsgHeaderFromVec (nlMsgHeaderToVec hd) = some (hd, []) := by
  have hlen : (nlMsgHeaderToVec hd).length = 16 := by
    simp [nlMsgHeaderToVec, u32ToLeBytes, u16ToLeBytes]
  unfold nlMsgHeaderFromVec
  rw [if_neg (by omega)]
  rw [show nlMsgHeaderToVec hd = u32ToLeBytes hd.nlmsg_len ++
      (u16ToLeBytes hd.nlmsg_type ++ (u16ToLeBytes hd.nlmsg_flags ++
      (u32ToLeBytes hd.nlmsg_seq ++ (u32ToLeBytes hd.nlmsg_pid ++ []))))
    from by simp [nlMsgHeaderToVec]]
  rw [readU32le_roundtrip h1]
  simp only [Option.bind_eq_bind, Option.some_bind]
  rw [readU16le_roundtrip h2]
  simp only [Option.some_bind]
  rw [readU16le_roundtrip h3]
  simp only [Option.some_bind]
  rw [readU32le_roundtrip h4]
  simp only [Option.some_bind]
  rw [readU32le_roundtrip h5]
  rfl

/-- Witness for C5 at a concrete header value. -/
theorem nlmsgheader_encode_decode_roundtrip_witness :
    (72 : ℕ) < 2 ^ 32 ∧ (0x14 : ℕ) < 2 ^ 16 ∧ (0x301 : ℕ) < 2 ^ 16 ∧
      (7 : ℕ) < 2 ^ 32 ∧ (4098 : ℕ) < 2 ^ 32 ∧
      nlMsgHeaderFromVec (nlMsgHeaderToVec ⟨72, 0x14, 0x301, 7, 4098⟩) =
        some (⟨72, 0x14, 0x301, 7, 4098⟩, []) :=
  ⟨by decide, by decide, by decide, by decide, by decide,
    nlmsgheader_encode_decode_roundtrip ⟨72, 0x14, 0x301, 7, 4098⟩
      (by decide) (by decide) (by decide) (by decide) (by decide)⟩

/-- C2: the `u16`-to-symbolic-type conversion used by `msg_type()` is
NOT total — both `NlMsgType::new` and its `header.rs` twin
`MessageType::new` hit the `panic!` arm (embedded as `none`) on an
unmapped wire value such as `0x05`, while mapped values succeed. -/
theorem msg_type_conversion_panics_on_unmapped_value :
    nlMsgTypeNew 0x05 = none ∧ messageTypeNew 0x05 = none ∧
      nlMsgTypeNew 0x14 = some NlMsgType.SockDiagByFamily ∧
      messageTypeNew 0x15 = some NlMsgType.SockDestroy := by
  exact ⟨rfl, rfl, rfl, rfl⟩

/-- C3: the socket layer does return the OS error code, but the dump
driver `NetlinkRequest::send` meets every transport failure (socket
creation, send, or recv) with `.expect(..)` — a panic — instead of
returning a transport error to the caller. -/
theorem transport_failure_panics_dump_driver (sz : ℕ) (e : Int)
    (sendRes : Except Int ℕ) (recvs : List (Except Int (List ℕ))) (n : ℕ) :
    netlinkSocketNew (-1) e = Except.error e ∧
      netlinkRequestSend sz (Except.error e) sendRes recvs =
        DumpOutcome.panicked ∧
      netlinkRequestSend sz (Except.ok ()) (Except.error e) recvs =
        DumpOutcome.panicked ∧
      netlinkRequestSend sz (Except.ok ()) (Except.ok n)
        (Except.error e :: recvs) = DumpOutcome.panicked := by
  refine ⟨?_, rfl, rfl, rfl⟩
  simp [netlinkSocketNew]

/-- C7: the built Inet/Tcp/Listen dump request: the `sockdiag/inet.rs`
builder produces header fields `nlmsg_len = 72`, `nlmsg_type = 0x14`,
`nlmsg_flags = 0x301 = REQUEST | ROOT | MATCH`, and the wire encoding
(`InternetSocketRequest::build`) is exactly 72 bytes: the 16 header
bytes of that header followed by a 56-byte payload. -/
theorem inet_dump_request_wire_layout :
    (inetRequestSocketState inetRequestNew socketStateListen).hdr.nlmsg_len
        = 72 ∧
      (inetRequestSocketState inetRequestNew socketStateListen).hdr.nlmsg_type
        = 0x14 ∧
      (inetRequestSocketState inetRequestNew socketStateListen).hdr.nlmsg_flags
        = 0x301 ∧
      internetSocketRequestBuild.length = 72 ∧
      internetSocketRequestBuild.take 16 =
        nlMsgHeaderToVec ⟨72, 0x14, 0x301, 0, 0⟩ ∧
      (internetSocketRequestBuild.drop 16).length = 56 := by
  decide

/-- C6: the fixed inet-diag decoder does NOT consume 72 bytes — it
drains `sz = mem::size_of::<Response>()` bytes (a layout constant
exceeding 72: the struct's disjoint fields already occupy at least 74
bytes).  On a buffer holding exactly the 72 wire bytes the drain
panics; whenever it succeeds the whole buffer advance is `sz` bytes, so
the bytes between offset 72 and `sz` are destroyed rather than left for
subsequent decoding. -/
theorem inet_response_drains_struct_size_not_72 (sz : ℕ) (v : List ℕ)
    (h : 72 < sz) :
    (v.length = 72 → inetResponseNew sz v = none) ∧
      (∀ r rest, inetResponseNew sz v = some (r, rest) →
        rest = v.drop sz ∧ sz ≤ v.length) := by
  constructor
  · intro hv
    unfold inetResponseNew
    rw [if_pos (by omega)]
  · intro r rest hok
    unfold inetResponseNew at hok
    by_cases hlt : v.length < sz
    · rw [if_pos hlt] at hok
      exact absurd hok (by simp)
    · rw [if_neg hlt] at hok
      cases hmap : inetParseFields (v.take sz) with
      | none => rw [hmap] at hok; exact absurd hok (by simp)
      | some msg =>
        rw [hmap] at hok
        simp at hok
        exact ⟨hok.2.symm, by omega⟩

/-- Witness for C6: with drain size 76 (a representative value above
72), the decoder panics on a 72-byte buffer. -/
theorem inet_response_drains_struct_size_not_72_witness :
    (72 : ℕ) < 76 ∧ (List.replicate 72 0).length = 72 ∧
      inetResponseNew 76 (List.replicate 72 0) = none :=
  ⟨by decide, by decide,
    (inet_response_drains_struct_size_not_72 76 (List.replicate 72 0)
      (by decide)).1 (by decide)⟩

/-- C4: a TLV attribute whose header declares total length `len`
(`4 ≤ len`), parsed from a buffer with enough bytes, consumes exactly
`len` bytes and then discards `(4 - len % 4) % 4` padding bytes — up to
the next 4-byte boundary — so the remainder starts `len + (4 - len % 4)
% 4` bytes into the buffer (offset 12 for a 9-byte TLV, offset `len`
when `len` is already a multiple of 4). -/
theorem attribute_consumes_declared_length_then_padding
    (v : List ℕ) (len : ℕ) (hv : 4 < v.length) (hlen4 : 4 ≤ len)
    (hhdr : v.getD 0 0 ||| (v.getD 1 0 <<< 8) = len)
    (henough : len + (4 - len % 4) % 4 ≤ v.length) :
    attributeNew v = .ok
      (⟨len, v.getD 2 0 ||| (v.getD 3 0 <<< 8), (v.drop 4).take (len - 4)⟩,
        v.drop (len + (4 - len % 4) % 4)) := by
  have hpad : (4 - len % 4) % 4 < 4 := by omega
  simp only [attributeNew, hhdr]
  rw [if_neg (by omega), if_neg (by omega),
    if_neg (by simp only [List.length_drop]; omega)]
  by_cases hmod : len % 4 = 0
  · rw [if_neg (by omega), List.drop_drop]
    have heq : 4 + (len - 4) = len + (4 - len % 4) % 4 := by omega
    rw [heq]
  · rw [if_pos (by omega), if_neg (by simp only [List.length_drop]; omega),
      List.drop_drop, List.drop_drop]
    have heq : 4 + (len - 4 + (4 - len % 4)) = len + (4 - len % 4) % 4 := by
      omega
    rw [heq]

/-- Witness for C4: a TLV of total length 9 (data length 5) is followed
by 3 padding bytes; the next byte handed back is at offset 12. -/
theorem attribute_consumes_declared_length_then_padding_witness :
    4 < ([9, 0, 7, 0, 1, 2, 3, 4, 5, 0, 0, 0, 99] : List ℕ).length ∧
      4 ≤ 9 ∧
      ([9, 0, 7, 0, 1, 2, 3, 4, 5, 0, 0, 0, 99] : List ℕ).getD 0 0 |||
        (([9, 0, 7, 0, 1, 2, 3, 4, 5, 0, 0, 0, 99] : List ℕ).getD 1 0 <<< 8)
        = 9 ∧
      9 + (4 - 9 % 4) % 4 ≤
        ([9, 0, 7, 0, 1, 2, 3, 4, 5, 0, 0, 0, 99] : List ℕ).length ∧
      attributeNew [9, 0, 7, 0, 1, 2, 3, 4, 5, 0, 0, 0, 99] =
        .ok (⟨9, 7, [1, 2, 3, 4, 5]⟩, [99]) :=
  ⟨by decide, by decide, by decide, by decide, by
    have h := attribute_consumes_declared_length_then_padding
      [9, 0, 7, 0, 1, 2, 3, 4, 5, 0, 0, 0, 99] 9 (by decide) (by decide)
      (by decide) (by decide)
    simpa using h⟩

/-- C8: a MemInfo attribute (code 5) with at least 32 bytes of data has
exactly its first 32 bytes parsed, in order, into the eight `u32` fields
`rmem_alloc, rcv_buf, wmem_alloc, snd_buf, fwd_alloc, wmem_queued,
opt_mem, backlog` (any surplus bytes are ignored); an attribute with
fewer than 32 bytes (for example 31) leaves the response — including its
`mem` field — completely unchanged, never partially filled. -/
theorem meminfo_attribute_parses_exactly_32_bytes_or_leaves_mem_absent
    (resp : UnixResponse) (sizeArg : ℕ)
    (b0 b1 b2 b3 b4 b5 b6 b7 b8 b9 b10 b11 b12 b13 b14 b15
      b16 b17 b18 b19 b20 b21 b22 b23 b24 b25 b26 b27 b28 b29 b30 b31 : ℕ)
    (rest short : List ℕ) (hshort : short.length < 32) :
    unixApplyAttr resp ⟨sizeArg, 5,
        b0 :: b1 :: b2 :: b3 :: b4 :: b5 :: b6 :: b7 :: b8 :: b9 :: b10 ::
        b11 :: b12 :: b13 :: b14 :: b15 :: b16 :: b17 :: b18 :: b19 :: b20 ::
        b21 :: b22 :: b23 :: b24 :: b25 :: b26 :: b27 :: b28 :: b29 :: b30 ::
        b31 :: rest⟩ =
      some { resp with mem := some ⟨
        ((b0 ||| (b1 <<< 8)) ||| (b2 <<< 16)) ||| (b3 <<< 24),
        ((b4 ||| (b5 <<< 8)) ||| (b6 <<< 16)) ||| (b7 <<< 24),
        ((b8 ||| (b9 <<< 8)) ||| (b10 <<< 16)) ||| (b11 <<< 24),
        ((b12 ||| (b13 <<< 8)) ||| (b14 <<< 16)) ||| (b15 <<< 24),
        ((b16 ||| (b17 <<< 8)) ||| (b18 <<< 16)) ||| (b19 <<< 24),
        ((b20 ||| (b21 <<< 8)) ||| (b22 <<< 16)) ||| (b23 <<< 24),
        ((b24 ||| (b25 <<< 8)) ||| (b26 <<< 16)) ||| (b27 <<< 24),
        ((b28 ||| (b29 <<< 8)) ||| (b30 <<< 16)) ||| (b31 <<< 24)⟩ } ∧
    unixApplyAttr resp ⟨sizeArg, 5, short⟩ = some resp := by
  constructor
  · simp only [unixApplyAttr]
    norm_num
    rfl
  · simp only [unixApplyAttr]
    norm_num
    intro hc
    exact absurd hc (by omega)

/-- Witness for C8: a 32-byte attribute fills all eight fields from its
bytes; a 31-byte attribute leaves the (absent) `mem` untouched. -/
theorem meminfo_attribute_parses_exactly_32_bytes_witness :
    (List.replicate 31 9).length < 32 ∧
      unixApplyAttr
        ⟨.Unix, 0, 0, 0, 0, (0, 0), none, none, none, none, none, none, none⟩
        ⟨36, 5, 1 :: 0 :: 0 :: 0 :: 2 :: 0 :: 0 :: 0 :: 3 :: 0 :: 0 :: 0 ::
          4 :: 0 :: 0 :: 0 :: 5 :: 0 :: 0 :: 0 :: 6 :: 0 :: 0 :: 0 ::
          7 :: 0 :: 0 :: 0 :: 8 :: 0 :: 0 :: 0 :: []⟩ =
        some ⟨.Unix, 0, 0, 0, 0, (0, 0), none, none, none, none, none,
          some ⟨1, 2, 3, 4, 5, 6, 7, 8⟩, none⟩ ∧
      unixApplyAttr
        ⟨.Unix, 0, 0, 0, 0, (0, 0), none, none, none, none, none, none, none⟩
        ⟨36, 5, List.replicate 31 9⟩ =
        some ⟨.Unix, 0, 0, 0, 0, (0, 0), none, none, none, none, none, none,
          none⟩ := by
  have h := meminfo_attribute_parses_exactly_32_bytes_or_leaves_mem_absent
    ⟨.Unix, 0, 0, 0, 0, (0, 0), none, none, none, none, none, none, none⟩
    36 1 0 0 0 2 0 0 0 3 0 0 0 4 0 0 0 5 0 0 0 6 0 0 0 7 0 0 0 8 0 0 0
    [] (List.replicate 31 9) (by decide)
  exact ⟨by decide, by simpa using h.1, by simpa using h.2⟩

/-- C10: for a Name attribute (code 0) the decoder unconditionally drops
the final data byte (`attr.data.pop()`) before any check — even when
that byte is not a NUL terminator, so a name arriving without a trailing
NUL loses its last character (second conjunct: the bytes of `ab`
become those of `a`).
If the remaining bytes contain an interior NUL the assignment is skipped
(`CString::new` fails), and if they are not valid UTF-8 the name becomes
`None` (`into_string().ok()`); in every case the response is still
produced with all other fields intact (the single field update in the
right-hand side). -/
theorem name_attribute_drops_last_byte_then_validates
    (resp : UnixResponse) (sizeArg : ℕ) (d : List ℕ) :
    unixApplyAttr resp ⟨sizeArg, 0, d⟩ =
      some { resp with name :=
        if 0 ∈ d.dropLast then resp.name
        else if utf8Valid d.dropLast then some d.dropLast else none } ∧
    unixApplyAttr resp ⟨sizeArg, 0, [0x61, 0x62]⟩ =
      some { resp with name := some [0x61] } := by
  constructor
  · simp only [unixApplyAttr, cstringNew, cstringIntoString]
    by_cases h0 : 0 ∈ d.dropLast
    · rw [if_pos h0, if_pos h0]
      rfl
    · rw [if_neg h0, if_neg h0]
      rfl
  · rfl

/-- A byte list of at least four elements yields at least one decoded
`u32`. -/
lemma leU32List_pos {L : List ℕ} (h : 4 ≤ L.length) :
    0 < (leU32List L).length := by
  rcases L with _ | ⟨a, _ | ⟨b, _ | ⟨c, _ | ⟨d, r⟩⟩⟩⟩ <;>
    simp_all [leU32List]

/-- Characterization of the Icons `while len > 4` loop on data holding
exactly `k` complete `u32` values: it decodes only the first `k - 1` of
them and leaves the last four bytes unconsumed. -/
lemma iconsLoop_spec : ∀ (k : ℕ) (d : List ℕ), d.length = 4 * k →
    iconsLoop d = (leU32List (d.take (4 * (k - 1))), d.drop (4 * (k - 1))) := by
  intro k
  induction k with
  | zero =>
    intro d hd
    have hnil : d = [] := List.eq_nil_of_length_eq_zero (by omega)
    subst hnil
    simp [iconsLoop, leU32List]
  | succ m ih =>
    intro d hd
    rcases d with _ | ⟨a, d⟩
    · simp at hd
    rcases d with _ | ⟨b, d⟩
    · simp at hd; omega
    rcases d with _ | ⟨c, d⟩
    · simp at hd; omega
    rcases d with _ | ⟨e, d⟩
    · simp at hd; omega
    have hd4 : d.length = 4 * m := by simp at hd; omega
    rcases m with _ | m'
    · have hnil : d = [] := List.eq_nil_of_length_eq_zero (by omega)
      subst hnil
      simp [iconsLoop, leU32List]
    · rcases d with _ | ⟨f, t⟩
      · simp at hd4
      have ihft := ih (f :: t) (by simp at hd4 ⊢; omega)
      rw [show m' + 1 + 1 - 1 = m' + 1 from rfl]
      rw [show 4 * (m' + 1) = 4 * m' + 1 + 1 + 1 + 1 from by omega]
      rw [show m' + 1 - 1 = m' from rfl] at ihft
      simp only [List.take_succ_cons, List.drop_succ_cons]
      simp only [iconsLoop]
      rw [ihft]
      simp [leU32List]

/-- C9 counterexample: an Icons attribute whose data is exactly one
complete little-endian `u32` (inode 7, data length 4 = 4·k with k = 1)
produces NO parsed inode — the loop runs only while strictly more than
four bytes remain — so `icons` stays absent instead of holding `[7]`. -/
theorem icons_attribute_all_inodes_counterexample :
    Option.map (fun r => r.icons)
      (unixApplyAttr
        ⟨.Unix, 0, 0, 0, 0, (0, 0), none, none, none, none, none, none, none⟩
        ⟨8, 3, [7, 0, 0, 0]⟩) = some none := by
  rfl

/-- C9 (amended): an Icons attribute whose data holds `k` complete
little-endian `u32` values is consumed only while STRICTLY more than
four bytes remain, so exactly the first `k - 1` inodes are decoded (the
final four bytes stay unconsumed), and the `icons` field is set only
when at least one inode was decoded, i.e. only when `k ≥ 2`. -/
theorem icons_attribute_consumes_while_more_than_four
    (resp : UnixResponse) (sizeArg : ℕ) (d : List ℕ) (k : ℕ)
    (hlen : d.length = 4 * k) :
    iconsLoop d = (leU32List (d.take (4 * (k - 1))), d.drop (4 * (k - 1))) ∧
      unixApplyAttr resp ⟨sizeArg, 3, d⟩ =
        some (if 2 ≤ k
          then { resp with icons := some (leU32List (d.take (4 * (k - 1)))) }
          else resp) := by
  have hspec := iconsLoop_spec k d hlen
  refine ⟨hspec, ?_⟩
  simp only [unixApplyAttr]
  norm_num
  rw [hspec]
  by_cases hk : 2 ≤ k
  · have hpos : 0 < (leU32List (d.take (4 * (k - 1)))).length :=
      leU32List_pos (by simp only [List.length_take]; omega)
    rw [if_pos hpos, if_pos hk]
  · have h0 : 4 * (k - 1) = 0 := by omega
    rw [h0]
    simp only [List.take_zero, leU32List]
    rw [if_neg (by simp), if_neg hk]

/-- Witness for C9 at `k = 3`: twelve data bytes decode into the first
two inodes only. -/
theorem icons_attribute_consumes_while_more_than_four_witness :
    ([1, 0, 0, 0, 2, 0, 0, 0, 3, 0, 0, 0] : List ℕ).length = 4 * 3 ∧
      unixApplyAttr
        ⟨.Unix, 0, 0, 0, 0, (0, 0), none, none, none, none, none, none, none⟩
        ⟨16, 3, [1, 0, 0, 0, 2, 0, 0, 0, 3, 0, 0, 0]⟩ =
      some ⟨.Unix, 0, 0, 0, 0, (0, 0), none, none, none, some [1, 2], none,
        none, none⟩ := by
  have h := icons_attribute_consumes_while_more_than_four
    ⟨.Unix, 0, 0, 0, 0, (0, 0), none, none, none, none, none, none, none⟩
    16 [1, 0, 0, 0, 2, 0, 0, 0, 3, 0, 0, 0] 3 (by decide)
  exact ⟨by decide, by simpa using h.2⟩

/-- The receive buffer of C1's failing input: one ABI-well-formed
inet-diag sock-diag message (16-byte header with `nlmsg_len = 88`,
`nlmsg_type = 0x14`, `NLM_F_MULTI` flag, followed by its fixed 72-byte
payload for family Inet) and then one well-formed Done message
(`nlmsg_len = 16`, `nlmsg_type = 3`). -/
def inetDumpBuf : List ℕ :=
  [88, 0, 0, 0, 0x14, 0, 2, 0, 0, 0, 0, 0, 0, 0, 0, 0] ++
    (2 :: List.replicate 71 0) ++
    [16, 0, 0, 0, 3, 0, 2, 0, 0, 0, 0, 0, 0, 0, 0, 0]

/-- C1: on a buffer holding one wire-well-formed inet-diag message
(72-byte payload, as `sock_diag(7)` defines it) followed by a Done
message, the dump driver's per-buffer decode loop does NOT return the
one response and stop at Done — it panics, because the inet decoder
drains `mem::size_of::<Response>()` bytes (any value above 72; at least
74 by field disjointness) from the 72-byte payload. -/
theorem dump_decode_loop_panics_on_wire_sized_inet_message (sz : ℕ)
    (h : 72 < sz) :
    decodeLoop sz (inetDumpBuf.length + 1) inetDumpBuf = .panic := by
  have hinet : inetResponseNew sz (2 :: List.replicate 71 0) = none := by
    unfold inetResponseNew
    rw [if_pos (show (2 :: List.replicate 71 0 : List ℕ).length < sz by
      simp; omega)]
  have hsock : sockdiagResponseNew sz (2 :: List.replicate 71 0) = none := by
    show Option.map (fun p => SockdiagResponse.Inet p.1)
      (inetResponseNew sz (2 :: List.replicate 71 0)) = none
    rw [hinet]
    rfl
  have hdr : nlMsgHeaderFromVec inetDumpBuf =
      some (⟨88, 0x14, 2, 0, 0⟩, (2 :: List.replicate 71 0) ++
        [16, 0, 0, 0, 3, 0, 2, 0, 0, 0, 0, 0, 0, 0, 0, 0]) := by decide
  have hresp : netlinkResponseNew sz inetDumpBuf = .panic := by
    unfold netlinkResponseNew
    rw [hdr]
    norm_num
    rw [show nlMsgTypeNew 20 = some NlMsgType.SockDiagByFamily from rfl]
    rw [hsock]
  rw [show inetDumpBuf.length + 1 = 104 + 1 from by decide]
  rw [decodeLoop]
  rw [hresp]

/-- Witness for C1 at the representative drain size 88. -/
theorem dump_decode_loop_panics_on_wire_sized_inet_message_witness :
    (72 : ℕ) < 88 ∧
      decodeLoop 88 (inetDumpBuf.length + 1) inetDumpBuf = PRes.panic :=
  ⟨by decide,
    dump_decode_loop_panics_on_wire_sized_inet_message 88 (by decide)⟩
